import Mathlib

/-!
Shallow embedding of the virtual TCP-over-UDP layer of ya-relay
(src/client/src/virtual_layer.rs) and proofs about it.

Byte values are modelled as `Nat` (u8 values are 0..255; the only arithmetic
performed is `% 0xff`, which never overflows). NodeIds and IPv6 addresses are
byte lists. The `HashMap`s of `TcpLayerState` are modelled as association
lists with replace-on-insert semantics, matching `HashMap::insert` /
`HashMap::remove`. Async side effects (the tokio channels, the smoltcp
engine) are modelled by making their observable outputs explicit return
values of the corresponding step functions.
-/

namespace YaRelay

/-- A sequence of bytes (each in 0..255), e.g. a NodeId or IPv6 address. -/
abbrev Bytes := List Nat

/-- Constant `IPV6_ADDRESS_LEN` from `to_ipv6`. -/
def IPV6_ADDRESS_LEN : Nat := 16

/-- Constant `TCP_BIND_PORT`. -/
def TCP_BIND_PORT : Nat := 1

/-- Embedding of `fn to_ipv6(bytes: impl AsRef<[u8]>) -> Ipv6Addr`:
copy the first `min 16 len` source bytes into a zeroed 16-byte array,
reduce byte 0 modulo 0xff, and force byte 15 to 0x02 when bytes 0..=14 are
all zero and byte 15 is below 0x02. The result is the 16 address bytes. -/
def to_ipv6 (bytes : Bytes) : Bytes :=
  let len := min IPV6_ADDRESS_LEN bytes.length
  let copied := bytes.take len ++ List.replicate (IPV6_ADDRESS_LEN - len) 0
  let masked := copied.set 0 (copied.getD 0 0 % 0xff)
  if masked.take 15 = List.replicate 15 0 ∧ masked.getD 15 0 < 0x02 then
    masked.set 15 0x02
  else
    masked

/-- The part of a `Session` visible to this layer: its identifier. -/
structure SessionM where
  id : Nat
  deriving DecidableEq, Repr

/-- Model of `NodeEntry` from the registry: NodeId, session handle, slot. -/
structure NodeEntry where
  id : Bytes
  session : SessionM
  slot : Nat
  deriving DecidableEq, Repr

/-- Model of `VirtNode`: per-peer routing row. The endpoint is (VirtualIP, port). -/
structure VirtNode where
  id : Bytes
  endpointAddr : Bytes
  endpointPort : Nat
  session : SessionM
  session_slot : Nat
  deriving DecidableEq, Repr

/-- Model of `VirtNode::try_new`: derive the endpoint from the id via `to_ipv6`.
The Rust version returns `Result` but has no failure path. -/
def VirtNode.try_new (id : Bytes) (session : SessionM) (session_slot : Nat) :
    VirtNode :=
  { id := id
    endpointAddr := to_ipv6 id
    endpointPort := TCP_BIND_PORT
    session := session
    session_slot := session_slot }

section AssocMap

variable {α : Type} {β : Type} [DecidableEq α]

/-- Lookup in an association-list map (models `HashMap::get`). -/
def mapFind (m : List (α × β)) (k : α) : Option β :=
  match m with
  | [] => none
  | (k0, v0) :: rest => if k0 = k then some v0 else mapFind rest k

/-- Remove a key (models `HashMap::remove`). -/
def mapRemove (m : List (α × β)) (k : α) : List (α × β) :=
  match m with
  | [] => []
  | (k0, v0) :: rest =>
    if k0 = k then mapRemove rest k else (k0, v0) :: mapRemove rest k

/-- Insert, replacing any existing binding (models `HashMap::insert`). -/
def mapInsert (m : List (α × β)) (k : α) (v : β) : List (α × β) :=
  (k, v) :: mapRemove m k

/-- Number of bindings stored for a key. -/
def countKey (m : List (α × β)) (k : α) : Nat :=
  (m.filter fun p => p.1 = k).length

end AssocMap

/-- The mutable state of `TcpLayer` (`TcpLayerState`): the `nodes` index
(IP bytes → VirtNode), the `ips` index (NodeId → IP bytes) and the
`forward_senders` map (NodeId → sender handle, modelled by a token). The
`ingress` channel is modelled separately as the output of `ingress_router`. -/
structure TcpLayerState where
  nodes : List (Bytes × VirtNode)
  ips : List (Bytes × Bytes)
  forward_senders : List (Bytes × Nat)
  deriving DecidableEq, Repr

/-- The freshly created state: all maps empty. -/
def emptyState : TcpLayerState := { nodes := [], ips := [], forward_senders := [] }

/-- Model of `TcpLayer::add_virt_node`: build the row via `try_new`, insert it into
both indices keyed by IP bytes resp. NodeId, and return it. -/
def add_virt_node (st : TcpLayerState) (node : NodeEntry) :
    TcpLayerState × VirtNode :=
  let vn := VirtNode.try_new node.id node.session node.slot
  let ip := vn.endpointAddr
  ({ st with
      nodes := mapInsert st.nodes ip vn
      ips := mapInsert st.ips vn.id ip },
   vn)

/-- Model of `TcpLayer::remove_node`: if `ips` holds an IP for the id, remove both
directions; always drop (and thereby close) the forward sender. -/
def remove_node (st : TcpLayerState) (node_id : Bytes) : TcpLayerState :=
  let st1 :=
    match mapFind st.ips node_id with
    | some ip =>
        { st with
            ips := mapRemove st.ips node_id
            nodes := mapRemove st.nodes ip }
    | none => st
  { st1 with forward_senders := mapRemove st1.forward_senders node_id }

/-- Model of `TcpLayer::shutdown`: drain `forward_senders`, closing every sender. -/
def shutdown (st : TcpLayerState) : TcpLayerState :=
  { st with forward_senders := [] }

/-- Model of `TcpLayerState::resolve_node`: two-step lookup; `none` models the
`anyhow` error (`UnknownNode`). -/
def resolve_node (st : TcpLayerState) (node : Bytes) : Option VirtNode :=
  match mapFind st.ips node with
  | some ip => mapFind st.nodes ip
  | none => none

/-- Model of `TcpLayer::register_sender`: stash the per-peer sender. -/
def register_sender (st : TcpLayerState) (node_id : Bytes) (tx : Nat) :
    TcpLayerState :=
  { st with forward_senders := mapInsert st.forward_senders node_id tx }

/-- Outcome of `TcpLayer::connect`: the state after the call, whether the
call returned `Ok` (the pair of sender and disconnect receiver), and whether
the per-peer forwarding task was spawned. -/
structure ConnectOutcome where
  state : TcpLayerState
  ok : Bool
  taskSpawned : Bool
  deriving DecidableEq, Repr

/-- Model of `TcpLayer::connect`: first `add_virt_node` (replacing previous settings),
then ask the engine to connect (`engineOk` models success of
`net.connect(node.endpoint, TCP_CONN_TIMEOUT)`); on failure the error
propagates via `?` with no further state change. On success the sender `tx`
is registered in `forward_senders` and the forwarding task is spawned. -/
def connect (st : TcpLayerState) (node : NodeEntry) (engineOk : Bool)
    (tx : Nat) : ConnectOutcome :=
  let p := add_virt_node st node
  if engineOk then
    { state := register_sender p.1 p.2.id tx, ok := true, taskSpawned := true }
  else
    { state := p.1, ok := false, taskSpawned := false }

/-- Model of `TcpLayer::receive` (state part): if `resolve_node` fails for the
incoming node, `add_virt_node` is called; otherwise the state is untouched.
The payload is then handed to `net.receive`/`net.poll`, which does not
touch `TcpLayerState`. -/
def receive (st : TcpLayerState) (node : NodeEntry) : TcpLayerState :=
  match resolve_node st node.id with
  | some _ => st
  | none => (add_virt_node st node).1

/-- One public mutating operation on the layer state. -/
inductive LayerOp where
  | add (node : NodeEntry)
  | remove (node_id : Bytes)
  | shutdown
  deriving Repr

/-- Apply one operation. -/
def applyOp (st : TcpLayerState) (op : LayerOp) : TcpLayerState :=
  match op with
  | .add n => (add_virt_node st n).1
  | .remove nid => remove_node st nid
  | .shutdown => shutdown st

/-- Run a sequence of operations from a state. -/
def runOps (st : TcpLayerState) (ops : List LayerOp) : TcpLayerState :=
  ops.foldl applyOp st

/-- NodeIds passed to `add` in a sequence of operations. -/
def addedIds : List LayerOp → List Bytes
  | [] => []
  | .add n :: rest => n.id :: addedIds rest
  | .remove _ :: rest => addedIds rest
  | .shutdown :: rest => addedIds rest

/-- The bidirectional-map consistency property of the two indices. -/
def Consistent (st : TcpLayerState) : Prop :=
  (∀ n ip, mapFind st.ips n = some ip →
      ∃ vn, mapFind st.nodes ip = some vn ∧ vn.id = n) ∧
  (∀ ip vn, mapFind st.nodes ip = some vn → mapFind st.ips vn.id = some ip)

/-- The smoltcp `Protocol` of a connection, reduced to what the router
inspects: TCP or anything else. -/
inductive ProtocolM where
  | tcp
  | other
  deriving DecidableEq, Repr

/-- Model of `SocketEndpoint`: an IP endpoint (address bytes, port) or another kind. -/
inductive SocketEndpointM where
  | ip (addr : Bytes) (port : Nat)
  | other
  deriving DecidableEq, Repr

/-- The `SocketDesc` of an ingress event: protocol, local and remote ends. -/
structure SocketDescM where
  protocol : ProtocolM
  localEp : SocketEndpointM
  remote : SocketEndpointM
  deriving DecidableEq, Repr

/-- Model of `IngressEvent` from the stack. -/
inductive IngressEventM where
  | inboundConnection (desc : SocketDescM)
  | disconnected (desc : SocketDescM)
  | packet (desc : SocketDescM) (payload : List Nat)
  deriving DecidableEq, Repr

/-- Model of the `Forwarded` value delivered to the application ingress channel. -/
structure ForwardedM where
  reliable : Bool
  node_id : Bytes
  payload : List Nat
  deriving DecidableEq, Repr

/-- One iteration of `TcpLayer::ingress_router`: what (if anything) is
submitted to the application ingress channel for one event. Connection and
disconnection events are logged only; a packet is forwarded only when its
protocol is TCP, its remote is an IP endpoint, and the remote address bytes
resolve in the `nodes` index. -/
def ingress_router (st : TcpLayerState) (event : IngressEventM) :
    Option ForwardedM :=
  match event with
  | .inboundConnection _ => none
  | .disconnected _ => none
  | .packet desc payload =>
    if desc.protocol ≠ ProtocolM.tcp then none
    else
      match desc.remote with
      | .ip addr _ =>
        match mapFind st.nodes addr with
        | some node =>
            some { reliable := true, node_id := node.id, payload := payload }
        | none => none
      | .other => none

/-- Model of `EgressEvent` from the stack: destination address bytes and raw frame. -/
structure EgressEventM where
  remote : Bytes
  payload : List Nat
  deriving DecidableEq, Repr

/-- Model of the `Forward` PDU handed to `node.session.send`. -/
structure ForwardPdu where
  session_id : Nat
  slot : Nat
  payload : List Nat
  deriving DecidableEq, Repr

/-- One iteration of `TcpLayer::egress_router`: the state afterwards and the
`Forward` PDU sent on the resolved node's session, if any. `sendOk` models
whether `session.send` succeeded; on error the router only logs. -/
def egress_router (st : TcpLayerState) (egress : EgressEventM)
    (sendOk : Bool) : TcpLayerState × Option ForwardPdu :=
  match mapFind st.nodes egress.remote with
  | none => (st, none)
  | some node =>
      (st,
       some { session_id := node.session.id
              slot := node.session_slot
              payload := egress.payload })

/-- Model of `TcpLayer::get_next_fwd_payload`, sequential time model. Timestamps are
integers. Input: the shared `forward_paused_till` cell and the current
instant. Output: the cell's value after the call and the instant at which
`rx.next()` begins to be awaited. When the cell holds `some date`, the task
sleeps for `(date - now).to_std()` when that conversion succeeds (the
duration is non-negative) and then unconditionally clears the cell. -/
def get_next_fwd_payload (forward_paused_till : Option Int) (now : Int) :
    Option Int × Int :=
  match forward_paused_till with
  | some date => (none, if now ≤ date then date else now)
  | none => (none, now)

/-- The 16-byte buffer after the copy step of `to_ipv6`. -/
def pad16 (b : Bytes) : Bytes :=
  b.take (min IPV6_ADDRESS_LEN b.length) ++
    List.replicate (IPV6_ADDRESS_LEN - min IPV6_ADDRESS_LEN b.length) 0

/-- The buffer after the `% 0xff` step of `to_ipv6`. -/
def mask16 (b : Bytes) : Bytes :=
  (pad16 b).set 0 ((pad16 b).getD 0 0 % 0xff)

/-- A 16-byte address that the derivation of `to_ipv6` leaves untouched:
byte 0 below 0xFF and not in the excluded unspecified/loopback range. -/
def UntouchedAddr (b : Bytes) : Prop :=
  b.length = 16 ∧ b.getD 0 0 < 255 ∧
    ¬(b.take 15 = List.replicate 15 0 ∧ b.getD 15 0 < 2)

instance (b : Bytes) : Decidable (UntouchedAddr b) := by
  unfold UntouchedAddr
  infer_instance

/-- Strengthened invariant for the C2 induction: both directions agree, every
registered ip is the `to_ipv6` image of its NodeId, and every registered
NodeId belongs to `allowed`. -/
def GoodState (allowed : List Bytes) (st : TcpLayerState) : Prop :=
  (∀ n ip, mapFind st.ips n = some ip →
      n ∈ allowed ∧ ip = to_ipv6 n ∧
        ∃ vn, mapFind st.nodes ip = some vn ∧ vn.id = n) ∧
  (∀ ip vn, mapFind st.nodes ip = some vn →
      vn.id ∈ allowed ∧ ip = to_ipv6 vn.id ∧ mapFind st.ips vn.id = some ip)

/-- No `to_ipv6` collision among the listed NodeIds. -/
def IpInjOn (allowed : List Bytes) : Prop :=
  ∀ a ∈ allowed, ∀ b ∈ allowed, to_ipv6 a = to_ipv6 b → a = b

instance (allowed : List Bytes) : Decidable (IpInjOn allowed) := by
  unfold IpInjOn
  infer_instance

/-! ### Structural lemmas about `to_ipv6` -/

section AssocMapLemmas

variable {α : Type} {β : Type} [DecidableEq α]

@[simp] theorem mapFind_nil (k : α) : mapFind ([] : List (α × β)) k = none := rfl

theorem mapFind_remove_self (m : List (α × β)) (k : α) :
    mapFind (mapRemove m k) k = none := by
  induction m with
  | nil => simp [mapRemove]
  | cons p rest ih =>
    obtain ⟨k0, v0⟩ := p
    by_cases h : k0 = k <;> simp [mapRemove, mapFind, h, ih]

theorem mapFind_remove_ne (m : List (α × β)) (k k' : α) (h : k' ≠ k) :
    mapFind (mapRemove m k) k' = mapFind m k' := by
  induction m with
  | nil => simp [mapRemove]
  | cons p rest ih =>
    obtain ⟨k0, v0⟩ := p
    by_cases h0 : k0 = k
    · subst h0
      simp [mapRemove, mapFind, Ne.symm h, ih]
    · by_cases h1 : k0 = k' <;> simp [mapRemove, mapFind, h0, h1, h, ih]

@[simp] theorem mapFind_insert_self (m : List (α × β)) (k : α) (v : β) :
    mapFind (mapInsert m k v) k = some v := by
  simp [mapInsert, mapFind]

theorem mapFind_insert_ne (m : List (α × β)) (k k' : α) (v : β) (h : k' ≠ k) :
    mapFind (mapInsert m k v) k' = mapFind m k' := by
  simp [mapInsert, mapFind, Ne.symm h, mapFind_remove_ne m k k' h]

theorem countKey_remove_self (m : List (α × β)) (k : α) :
    countKey (mapRemove m k) k = 0 := by
  induction m with
  | nil => simp [mapRemove, countKey]
  | cons p rest ih =>
    obtain ⟨k0, v0⟩ := p
    by_cases h : k0 = k <;> simp [mapRemove, countKey, h, ih] <;>
      simpa [countKey] using ih

theorem countKey_insert_self (m : List (α × β)) (k : α) (v : β) :
    countKey (mapInsert m k v) k = 1 := by
  have h := countKey_remove_self m k
  simp [mapInsert, countKey] at h ⊢
  simpa [countKey] using h

end AssocMapLemmas

theorem to_ipv6_eq_mask16 (b : Bytes) :
    to_ipv6 b =
      if (mask16 b).take 15 = List.replicate 15 0 ∧ (mask16 b).getD 15 0 < 0x02
      then (mask16 b).set 15 0x02
      else mask16 b := rfl

theorem length_pad16 (b : Bytes) : (pad16 b).length = 16 := by
  simp [pad16, IPV6_ADDRESS_LEN]

theorem getD_pad16 (b : Bytes) (i : Nat) (hi : i < 16) :
    (pad16 b).getD i 0 = b.getD i 0 := by
  by_cases h : i < min IPV6_ADDRESS_LEN b.length
  · have hlen : (b.take (min IPV6_ADDRESS_LEN b.length)).length =
        min IPV6_ADDRESS_LEN b.length := by
      simp [List.length_take]
    have hib : i < b.length := lt_of_lt_of_le h (min_le_right _ _)
    rw [pad16, List.getD_append _ _ _ _ (by rw [hlen]; exact h)]
    rw [List.getD_eq_getElem _ _ (by rw [hlen]; exact h),
        List.getD_eq_getElem _ _ hib]
    rw [List.getElem_take]
  · have hb : b.length ≤ i := by
      simp [IPV6_ADDRESS_LEN] at h ⊢
      omega
    have hlen : (b.take (min IPV6_ADDRESS_LEN b.length)).length =
        min IPV6_ADDRESS_LEN b.length := by
      simp [List.length_take]
    rw [pad16, List.getD_append_right _ _ _ _ (by rw [hlen]; omega)]
    rw [List.getD_eq_default _ _ hb]
    rcases Nat.lt_or_ge (i - (b.take (min IPV6_ADDRESS_LEN b.length)).length)
        (IPV6_ADDRESS_LEN - min IPV6_ADDRESS_LEN b.length) with hlt | hge
    · rw [List.getD_eq_getElem _ _ (by simpa using hlt)]
      rw [List.getElem_replicate]
    · exact List.getD_eq_default _ _ (by simpa using hge)

theorem length_mask16 (b : Bytes) : (mask16 b).length = 16 := by
  simp [mask16, length_pad16]

theorem getD_mask16_zero (b : Bytes) :
    (mask16 b).getD 0 0 = b.getD 0 0 % 255 := by
  have h16 := length_pad16 b
  rw [mask16, List.getD_eq_getElem _ _ (by simp [h16])]
  rw [List.getElem_set_self]
  rw [getD_pad16 b 0 (by omega)]

theorem getD_mask16_pos (b : Bytes) (i : Nat) (h1 : 1 ≤ i) (hi : i < 16) :
    (mask16 b).getD i 0 = b.getD i 0 := by
  have h16 := length_pad16 b
  rw [mask16, List.getD_eq_getElem _ _ (by simp [h16]; omega)]
  rw [List.getElem_set_ne (by omega)]
  rw [← List.getD_eq_getElem _ 0 (by omega)]
  exact getD_pad16 b i hi

theorem length_to_ipv6 (b : Bytes) : (to_ipv6 b).length = 16 := by
  rw [to_ipv6_eq_mask16]
  split
  · simp [length_mask16]
  · exact length_mask16 b

theorem getD_to_ipv6_zero (b : Bytes) :
    (to_ipv6 b).getD 0 0 = b.getD 0 0 % 255 := by
  have h16 := length_mask16 b
  rw [to_ipv6_eq_mask16]
  split
  · rw [List.getD_eq_getElem _ _ (by simp [h16]),
        List.getElem_set_ne (by omega)]
    rw [← List.getD_eq_getElem _ 0 (by omega)]
    exact getD_mask16_zero b
  · exact getD_mask16_zero b

theorem getD_to_ipv6_mid (b : Bytes) (i : Nat) (h1 : 1 ≤ i) (hi : i ≤ 14) :
    (to_ipv6 b).getD i 0 = b.getD i 0 := by
  have h16 := length_mask16 b
  rw [to_ipv6_eq_mask16]
  split
  · rw [List.getD_eq_getElem _ _ (by simp [h16]; omega),
        List.getElem_set_ne (by omega)]
    rw [← List.getD_eq_getElem _ 0 (by omega)]
    exact getD_mask16_pos b i h1 (by omega)
  · exact getD_mask16_pos b i h1 (by omega)

theorem getD_replicate_zero (r i : Nat) :
    (List.replicate r (0 : Nat)).getD i 0 = 0 := by
  rcases Nat.lt_or_ge i r with h | h
  · rw [List.getD_eq_getElem _ _ (by simpa using h)]
    rw [List.getElem_replicate]
  · exact List.getD_eq_default _ _ (by simpa using h)

theorem getD_to_ipv6_15_forced (b : Bytes)
    (hz : ∀ i, i ≤ 14 → b.getD i 0 = 0) (h15 : b.getD 15 0 < 2) :
    (to_ipv6 b).getD 15 0 = 2 := by
  have h16 := length_mask16 b
  have htake : (mask16 b).take 15 = List.replicate 15 0 := by
    apply List.ext_getElem
    · simp [h16]
    · intro i hi1 hi2
      have hi : i < 15 := by simpa using hi2
      rw [List.getElem_take, List.getElem_replicate]
      rw [← List.getD_eq_getElem _ 0 (by omega)]
      rcases Nat.eq_zero_or_pos i with h0 | hpos
      · subst h0
        rw [getD_mask16_zero, hz 0 (by omega)]
      · rw [getD_mask16_pos b i hpos (by omega)]
        exact hz i (by omega)
  have hd15 : (mask16 b).getD 15 0 = b.getD 15 0 :=
    getD_mask16_pos b 15 (by omega) (by omega)
  rw [to_ipv6_eq_mask16, if_pos ⟨htake, by rw [hd15]; exact h15⟩]
  rw [List.getD_eq_getElem _ _ (by simp [h16])]
  rw [List.getElem_set_self]

theorem getD_to_ipv6_15_kept (b : Bytes) (h15 : 2 ≤ b.getD 15 0) :
    (to_ipv6 b).getD 15 0 = b.getD 15 0 := by
  have hd15 : (mask16 b).getD 15 0 = b.getD 15 0 :=
    getD_mask16_pos b 15 (by omega) (by omega)
  rw [to_ipv6_eq_mask16, if_neg (by rintro ⟨-, hlt⟩; omega)]
  exact hd15

theorem to_ipv6_ne_unspecified (b : Bytes) :
    to_ipv6 b ≠ List.replicate 16 0 := by
  have h16 := length_mask16 b
  rw [to_ipv6_eq_mask16]
  split
  · intro heq
    have h2 := congrArg (fun l => l.getD 15 0) heq
    simp only at h2
    rw [List.getD_eq_getElem _ _ (by simp [h16]), List.getElem_set_self,
        getD_replicate_zero] at h2
    omega
  · rename_i hc
    intro heq
    refine hc ⟨?_, ?_⟩
    · rw [heq]
      simp [List.take_replicate]
    · rw [heq, getD_replicate_zero]
      omega

theorem to_ipv6_ne_localhost (b : Bytes) :
    to_ipv6 b ≠ List.replicate 15 0 ++ [1] := by
  have h16 := length_mask16 b
  have htgt : (List.replicate 15 (0 : Nat) ++ [1]).getD 15 0 = 1 := by decide
  have htgt2 : (List.replicate 15 (0 : Nat) ++ [1]).take 15 =
      List.replicate 15 0 := by decide
  rw [to_ipv6_eq_mask16]
  split
  · intro heq
    have h2 := congrArg (fun l => l.getD 15 0) heq
    simp only at h2
    rw [List.getD_eq_getElem _ _ (by simp [h16]), List.getElem_set_self,
        htgt] at h2
    omega
  · rename_i hc
    intro heq
    refine hc ⟨?_, ?_⟩
    · rw [heq, htgt2]
    · rw [heq, htgt]
      omega

/-- C1: for every byte sequence, `to_ipv6` yields 16 bytes that copy the
input (byte 0 reduced modulo 0xFF, right-padded with zeros, byte 15 forced
to 0x02 exactly in the all-zero low-byte case); the result never starts
with 0xFF and is never `::0` or `::1`; input `0xFF,0,…` maps to first byte
0, the all-zero input maps to `::2`, and a leading 0xFE is kept. -/
theorem c1_to_ipv6_derivation :
    (∀ b : Bytes,
        (to_ipv6 b).length = 16
      ∧ (to_ipv6 b).getD 0 0 = b.getD 0 0 % 255
      ∧ (∀ i, 1 ≤ i → i ≤ 14 → (to_ipv6 b).getD i 0 = b.getD i 0)
      ∧ ((∀ i, i ≤ 14 → b.getD i 0 = 0) → b.getD 15 0 < 2 →
            (to_ipv6 b).getD 15 0 = 2)
      ∧ (2 ≤ b.getD 15 0 → (to_ipv6 b).getD 15 0 = b.getD 15 0)
      ∧ (to_ipv6 b).getD 0 0 ≠ 255
      ∧ to_ipv6 b ≠ List.replicate 16 0
      ∧ to_ipv6 b ≠ List.replicate 15 0 ++ [1])
    ∧ (to_ipv6 (255 :: List.replicate 19 0)).getD 0 0 = 0
    ∧ to_ipv6 (List.replicate 20 0) = List.replicate 15 0 ++ [2]
    ∧ (to_ipv6 (254 :: List.replicate 19 0)).getD 0 0 = 254 := by
  refine ⟨fun b => ⟨length_to_ipv6 b, getD_to_ipv6_zero b,
      fun i h1 hi => getD_to_ipv6_mid b i h1 hi,
      getD_to_ipv6_15_forced b, getD_to_ipv6_15_kept b,
      ?_, to_ipv6_ne_unspecified b, to_ipv6_ne_localhost b⟩,
    by decide, by decide, by decide⟩
  rw [getD_to_ipv6_zero]
  have := Nat.mod_lt (b.getD 0 0) (show 0 < 255 by omega)
  omega

/-- Witness for C1: concrete instantiations discharging the hypotheses of
the middle-byte, forced-byte-15 and kept-byte-15 conjuncts. -/
theorem c1_to_ipv6_derivation_witness :
    (to_ipv6 (7 :: List.replicate 19 0)).getD 3 0 =
        (7 :: List.replicate 19 0).getD 3 0
  ∧ (to_ipv6 (List.replicate 20 0)).getD 15 0 = 2
  ∧ (to_ipv6 (List.replicate 15 0 ++ [5])).getD 15 0 =
        (List.replicate 15 0 ++ [5]).getD 15 0 :=
  ⟨(c1_to_ipv6_derivation.1 (7 :: List.replicate 19 0)).2.2.1 3
      (by omega) (by omega),
   (c1_to_ipv6_derivation.1 (List.replicate 20 0)).2.2.2.1
      (fun i _ => getD_replicate_zero 20 i) (by decide),
   (c1_to_ipv6_derivation.1 (List.replicate 15 0 ++ [5])).2.2.2.2.1
      (by decide)⟩

theorem to_ipv6_untouched (b : Bytes) (h : UntouchedAddr b) :
    to_ipv6 b = b := by
  obtain ⟨hlen, h0, hex⟩ := h
  have hpad : pad16 b = b := by
    rw [pad16, hlen]
    simp [IPV6_ADDRESS_LEN]
    omega
  have hmask : mask16 b = b := by
    rw [mask16, hpad]
    cases b with
    | nil => simp at hlen
    | cons x rest =>
      have hx : x < 255 := by simpa using h0
      simp [List.set, Nat.mod_eq_of_lt hx]
  rw [to_ipv6_eq_mask16, hmask, if_neg hex]

/-- C3 counterexample: two distinct NodeIds (differing only past byte 15)
map to the same virtual IPv6 address, so `to_ipv6` is not injective. -/
theorem c3_counterexample :
    to_ipv6 (List.replicate 20 0) = to_ipv6 (List.replicate 19 0 ++ [1])
  ∧ (List.replicate 20 0 : Bytes) ≠ List.replicate 19 0 ++ [1] := by
  decide

/-- C3 amended: `to_ipv6` is not injective over all NodeIds (it only reads
the first 16 bytes and collapses the excluded values); it is injective —
indeed the identity — on 16-byte inputs whose byte 0 is below 0xFF and
which are not in the excluded unspecified/loopback range. -/
theorem c3_to_ipv6_injective_on_untouched (b1 b2 : Bytes)
    (h1 : UntouchedAddr b1) (h2 : UntouchedAddr b2)
    (heq : to_ipv6 b1 = to_ipv6 b2) : b1 = b2 := by
  rw [to_ipv6_untouched b1 h1, to_ipv6_untouched b2 h2] at heq
  exact heq

/-- Witness for C3 amended at a concrete untouched address. -/
theorem c3_to_ipv6_injective_on_untouched_witness :
    (1 :: List.replicate 15 0 : Bytes) = 1 :: List.replicate 15 0 :=
  c3_to_ipv6_injective_on_untouched (1 :: List.replicate 15 0)
    (1 :: List.replicate 15 0) (by decide) (by decide) rfl

/-- C5: calling `add_virt_node` twice for the same NodeId leaves exactly one
binding for that NodeId in `ips` and one for its virtual IP in `nodes`;
`resolve_node` then returns the row built from the second call's session and
slot; `forward_senders` is untouched. -/
theorem c5_reAdd_replaces (st : TcpLayerState) (e1 e2 : NodeEntry)
    (hid : e1.id = e2.id) :
    resolve_node (add_virt_node (add_virt_node st e1).1 e2).1 e2.id =
        some (VirtNode.try_new e2.id e2.session e2.slot)
  ∧ countKey (add_virt_node (add_virt_node st e1).1 e2).1.ips e2.id = 1
  ∧ countKey (add_virt_node (add_virt_node st e1).1 e2).1.nodes
        (to_ipv6 e2.id) = 1
  ∧ (add_virt_node (add_virt_node st e1).1 e2).1.forward_senders =
        st.forward_senders := by
  refine ⟨?_, ?_, ?_, rfl⟩
  · simp [resolve_node, add_virt_node, VirtNode.try_new]
  · simp [add_virt_node, VirtNode.try_new, countKey_insert_self]
  · simp [add_virt_node, VirtNode.try_new, countKey_insert_self]

/-- Witness for C5: a concrete re-add with a changed session and slot. -/
theorem c5_reAdd_replaces_witness :
    resolve_node
        (add_virt_node
          (add_virt_node emptyState ⟨3 :: List.replicate 19 0, ⟨1⟩, 7⟩).1
          ⟨3 :: List.replicate 19 0, ⟨2⟩, 9⟩).1
        (3 :: List.replicate 19 0) =
      some (VirtNode.try_new (3 :: List.replicate 19 0) ⟨2⟩ 9) :=
  (c5_reAdd_replaces emptyState ⟨3 :: List.replicate 19 0, ⟨1⟩, 7⟩
    ⟨3 :: List.replicate 19 0, ⟨2⟩, 9⟩ rfl).1

/-- C9 counterexample: when the engine connect step fails, `connect` has
already inserted the node via `add_virt_node`, and that IdMap row remains —
contradicting the claim that no node state is retained. -/
theorem c9_counterexample :
    (connect emptyState ⟨3 :: List.replicate 19 0, ⟨1⟩, 7⟩ false 0).ok = false
  ∧ resolve_node
        (connect emptyState ⟨3 :: List.replicate 19 0, ⟨1⟩, 7⟩ false 0).state
        (3 :: List.replicate 19 0) =
      some (VirtNode.try_new (3 :: List.replicate 19 0) ⟨1⟩ 7) := by
  decide

/-- C9 amended: when the engine connect step fails, the error is returned,
no `forward_senders` entry is created and no forwarding task is spawned, but
the IdMap row inserted by `add_virt_node` remains (the caller may
`remove_node` it). -/
theorem c9_connect_failure (st : TcpLayerState) (node : NodeEntry) (tx : Nat) :
    (connect st node false tx).ok = false
  ∧ (connect st node false tx).taskSpawned = false
  ∧ (connect st node false tx).state.forward_senders = st.forward_senders
  ∧ resolve_node (connect st node false tx).state node.id =
      some (VirtNode.try_new node.id node.session node.slot) := by
  refine ⟨rfl, rfl, rfl, ?_⟩
  simp [connect, resolve_node, add_virt_node, VirtNode.try_new]

/-- C10: `receive` adds the node only when its id does not resolve; an
existing row (session and slot included) is left unchanged, whereas
`connect` always replaces the row with one built from its argument. -/
theorem c10_receive_keeps_existing (st : TcpLayerState) (node : NodeEntry) :
    (∀ vn, resolve_node st node.id = some vn →
        receive st node = st
      ∧ resolve_node (receive st node) node.id = some vn)
  ∧ (resolve_node st node.id = none →
        receive st node = (add_virt_node st node).1
      ∧ resolve_node (receive st node) node.id =
          some (VirtNode.try_new node.id node.session node.slot))
  ∧ (∀ engineOk tx,
        resolve_node (connect st node engineOk tx).state node.id =
          some (VirtNode.try_new node.id node.session node.slot)) := by
  refine ⟨?_, ?_, ?_⟩
  · intro vn h
    constructor <;> simp [receive, h]
  · intro h
    have hr : receive st node = (add_virt_node st node).1 := by
      unfold receive
      rw [h]
    refine ⟨hr, ?_⟩
    rw [hr]
    simp [resolve_node, add_virt_node, VirtNode.try_new]
  · intro engineOk tx
    cases engineOk <;>
      simp [connect, register_sender, resolve_node, add_virt_node,
        VirtNode.try_new]

/-- Witness for C10: a second `receive` for a registered node with a
different session leaves the stored row (session 1, slot 7) unchanged. -/
theorem c10_receive_keeps_existing_witness :
    receive (add_virt_node emptyState ⟨3 :: List.replicate 19 0, ⟨1⟩, 7⟩).1
        ⟨3 :: List.replicate 19 0, ⟨2⟩, 9⟩ =
      (add_virt_node emptyState ⟨3 :: List.replicate 19 0, ⟨1⟩, 7⟩).1
  ∧ resolve_node
        (receive (add_virt_node emptyState ⟨3 :: List.replicate 19 0, ⟨1⟩, 7⟩).1
          ⟨3 :: List.replicate 19 0, ⟨2⟩, 9⟩)
        (3 :: List.replicate 19 0) =
      some (VirtNode.try_new (3 :: List.replicate 19 0) ⟨1⟩ 7) :=
  (c10_receive_keeps_existing
      (add_virt_node emptyState ⟨3 :: List.replicate 19 0, ⟨1⟩, 7⟩).1
      ⟨3 :: List.replicate 19 0, ⟨2⟩, 9⟩).1
    (VirtNode.try_new (3 :: List.replicate 19 0) ⟨1⟩ 7) (by decide)

/-- C6: the ingress router submits a value to the application ingress
channel exactly when the event is a TCP `Packet` whose remote is an IP
endpoint resolving in the `nodes` index, and the submitted value is
`Forwarded` with `reliable = true`, the resolved node's id, and the
payload. -/
theorem c6_ingress_delivery (st : TcpLayerState) (event : IngressEventM)
    (out : ForwardedM) :
    ingress_router st event = some out ↔
      ∃ desc payload addr port node,
        event = IngressEventM.packet desc payload
      ∧ desc.protocol = ProtocolM.tcp
      ∧ desc.remote = SocketEndpointM.ip addr port
      ∧ mapFind st.nodes addr = some node
      ∧ out = { reliable := true, node_id := node.id, payload := payload } := by
  constructor
  · intro h
    cases event with
    | inboundConnection d => simp [ingress_router] at h
    | disconnected d => simp [ingress_router] at h
    | packet desc payload =>
      by_cases hp : desc.protocol = ProtocolM.tcp
      · cases hrem : desc.remote with
        | ip addr port =>
          cases hfind : mapFind st.nodes addr with
          | some node =>
            refine ⟨desc, payload, addr, port, node, rfl, hp, hrem, hfind, ?_⟩
            simp [ingress_router, hp, hrem, hfind] at h
            exact h.symm
          | none => simp [ingress_router, hp, hrem, hfind] at h
        | other => simp [ingress_router, hp, hrem] at h
      · simp [ingress_router, hp] at h
  · rintro ⟨desc, payload, addr, port, node, rfl, hp, hrem, hfind, rfl⟩
    simp [ingress_router, hp, hrem, hfind]

/-- Witness for C6: a concrete TCP packet from a registered node is
delivered as `Forwarded` with that node's id. -/
theorem c6_ingress_delivery_witness :
    ingress_router
        (add_virt_node emptyState ⟨3 :: List.replicate 19 0, ⟨1⟩, 7⟩).1
        (IngressEventM.packet
          ⟨ProtocolM.tcp, SocketEndpointM.other,
            SocketEndpointM.ip (to_ipv6 (3 :: List.replicate 19 0)) 1⟩
          [9, 9]) =
      some { reliable := true, node_id := 3 :: List.replicate 19 0,
             payload := [9, 9] } :=
  (c6_ingress_delivery
      (add_virt_node emptyState ⟨3 :: List.replicate 19 0, ⟨1⟩, 7⟩).1
      (IngressEventM.packet
        ⟨ProtocolM.tcp, SocketEndpointM.other,
          SocketEndpointM.ip (to_ipv6 (3 :: List.replicate 19 0)) 1⟩
        [9, 9])
      { reliable := true, node_id := 3 :: List.replicate 19 0,
        payload := [9, 9] }).mpr
    ⟨⟨ProtocolM.tcp, SocketEndpointM.other,
        SocketEndpointM.ip (to_ipv6 (3 :: List.replicate 19 0)) 1⟩,
      [9, 9], to_ipv6 (3 :: List.replicate 19 0), 1,
      VirtNode.try_new (3 :: List.replicate 19 0) ⟨1⟩ 7,
      rfl, rfl, rfl, by decide, by decide⟩

/-- C7: the egress router leaves the whole layer state unchanged in every
case, and when the remote bytes resolve it sends
`Forward(session.id, session_slot, payload)` on the resolved node's
session; an unknown remote sends nothing. -/
theorem c7_egress_routing (st : TcpLayerState) (egress : EgressEventM)
    (sendOk : Bool) :
    (egress_router st egress sendOk).1 = st
  ∧ (∀ node, mapFind st.nodes egress.remote = some node →
        (egress_router st egress sendOk).2 =
          some { session_id := node.session.id, slot := node.session_slot,
                 payload := egress.payload })
  ∧ (mapFind st.nodes egress.remote = none →
        (egress_router st egress sendOk).2 = none) := by
  refine ⟨?_, ?_, ?_⟩
  · cases h : mapFind st.nodes egress.remote <;> simp [egress_router, h]
  · intro node h
    simp [egress_router, h]
  · intro h
    simp [egress_router, h]

/-- Witness for C7: a concrete egress frame for a registered node; the state
is unchanged even though the send fails (`sendOk = false`). -/
theorem c7_egress_routing_witness :
    (egress_router
        (add_virt_node emptyState ⟨3 :: List.replicate 19 0, ⟨1⟩, 7⟩).1
        ⟨to_ipv6 (3 :: List.replicate 19 0), [8]⟩ false).2 =
      some { session_id := 1, slot := 7, payload := [8] } :=
  (c7_egress_routing
      (add_virt_node emptyState ⟨3 :: List.replicate 19 0, ⟨1⟩, 7⟩).1
      ⟨to_ipv6 (3 :: List.replicate 19 0), [8]⟩ false).2.1
    (VirtNode.try_new (3 :: List.replicate 19 0) ⟨1⟩ 7) (by decide)

/-- C8: `get_next_fwd_payload` with a future pause instant starts awaiting
the queue exactly at that instant; whenever the pause cell was set at entry
it is cleared afterwards, and the queue is never awaited before the pause
instant. -/
theorem c8_pause_honored (p : Option Int) (now : Int) :
    (∀ d, p = some d → now < d →
        (get_next_fwd_payload p now).2 = d
      ∧ (get_next_fwd_payload p now).1 = none)
  ∧ (∀ d, p = some d → (get_next_fwd_payload p now).1 = none)
  ∧ (∀ d, p = some d →
        d ≤ (get_next_fwd_payload p now).2
      ∧ now ≤ (get_next_fwd_payload p now).2) := by
  refine ⟨?_, ?_, ?_⟩
  · rintro d rfl hlt
    simp [get_next_fwd_payload]
    omega
  · rintro d rfl
    simp [get_next_fwd_payload]
  · rintro d rfl
    simp only [get_next_fwd_payload]
    constructor
    · split <;> omega
    · split <;> omega

/-- Witness for C8: pause set to instant 50, now 0: the queue await begins
at 50 and the cell is cleared. -/
theorem c8_pause_honored_witness :
    (get_next_fwd_payload (some 50) 0).2 = 50
  ∧ (get_next_fwd_payload (some 50) 0).1 = none :=
  (c8_pause_honored (some 50) 0).1 50 rfl (by omega)

theorem mem_addedIds (ops : List LayerOp) (n : NodeEntry)
    (h : LayerOp.add n ∈ ops) : n.id ∈ addedIds ops := by
  induction ops with
  | nil => simp at h
  | cons op rest ih =>
    rcases List.mem_cons.mp h with h0 | h0
    · subst h0
      simp [addedIds]
    · cases op <;> simp [addedIds, ih h0]

theorem goodState_empty (A : List Bytes) : GoodState A emptyState := by
  constructor <;> intro a b h <;> simp [emptyState, mapFind] at h

theorem goodState_applyOp (A : List Bytes) (hinj : IpInjOn A)
    (st : TcpLayerState) (op : LayerOp)
    (hop : ∀ n, op = LayerOp.add n → n.id ∈ A)
    (hst : GoodState A st) : GoodState A (applyOp st op) := by
  obtain ⟨hfwd, hbwd⟩ := hst
  cases op with
  | shutdown => exact ⟨hfwd, hbwd⟩
  | add e =>
    have heA : e.id ∈ A := hop e rfl
    have hstate : applyOp st (LayerOp.add e) =
        { st with
            nodes := mapInsert st.nodes (to_ipv6 e.id)
              (VirtNode.try_new e.id e.session e.slot)
            ips := mapInsert st.ips e.id (to_ipv6 e.id) } := rfl
    rw [hstate]
    constructor
    · intro m ip hfind
      simp only at hfind
      by_cases hm : m = e.id
      · subst hm
        rw [mapFind_insert_self] at hfind
        obtain rfl : to_ipv6 e.id = ip := Option.some.inj hfind
        exact ⟨heA, rfl,
          VirtNode.try_new e.id e.session e.slot, mapFind_insert_self _ _ _,
          rfl⟩
      · rw [mapFind_insert_ne _ _ _ _ hm] at hfind
        obtain ⟨hmA, hip, vn, hvn, hvnid⟩ := hfwd m ip hfind
        have hipne : ip ≠ to_ipv6 e.id := by
          intro hc
          exact hm (hinj m hmA e.id heA (hip ▸ hc))
        refine ⟨hmA, hip, vn, ?_, hvnid⟩
        simp only
        rw [mapFind_insert_ne _ _ _ _ hipne]
        exact hvn
    · intro ip vn hfind
      simp only at hfind
      by_cases hip : ip = to_ipv6 e.id
      · subst hip
        rw [mapFind_insert_self] at hfind
        obtain rfl : VirtNode.try_new e.id e.session e.slot = vn :=
          Option.some.inj hfind
        exact ⟨heA, rfl, mapFind_insert_self _ _ _⟩
      · rw [mapFind_insert_ne _ _ _ _ hip] at hfind
        obtain ⟨hidA, hipvn, hips⟩ := hbwd ip vn hfind
        have hidne : vn.id ≠ e.id := by
          intro hc
          exact hip (by rw [hipvn, hc])
        refine ⟨hidA, hipvn, ?_⟩
        simp only
        rw [mapFind_insert_ne _ _ _ _ hidne]
        exact hips
  | remove nid =>
    cases hlook : mapFind st.ips nid with
    | none =>
      have hstate : applyOp st (LayerOp.remove nid) =
          { st with
              forward_senders := mapRemove st.forward_senders nid } := by
        simp only [applyOp, remove_node, hlook]
      rw [hstate]
      exact ⟨fun m ip hfind => hfwd m ip hfind,
             fun ip vn hfind => hbwd ip vn hfind⟩
    | some ip0 =>
      obtain ⟨hnidA, hip0, vn0, hvn0, hvn0id⟩ := hfwd nid ip0 hlook
      have hstate : applyOp st (LayerOp.remove nid) =
          { st with
              ips := mapRemove st.ips nid
              nodes := mapRemove st.nodes ip0
              forward_senders := mapRemove st.forward_senders nid } := by
        simp only [applyOp, remove_node, hlook]
      rw [hstate]
      constructor
      · intro m ip hfind
        simp only at hfind
        have hm : m ≠ nid := by
          intro hc
          subst hc
          rw [mapFind_remove_self] at hfind
          exact Option.noConfusion hfind
        rw [mapFind_remove_ne _ _ _ hm] at hfind
        obtain ⟨hmA, hip, vn, hvn, hvnid⟩ := hfwd m ip hfind
        have hipne : ip ≠ ip0 := by
          intro hc
          exact hm (hinj m hmA nid hnidA (by rw [← hip, ← hip0, hc]))
        refine ⟨hmA, hip, vn, ?_, hvnid⟩
        simp only
        rw [mapFind_remove_ne _ _ _ hipne]
        exact hvn
      · intro ip vn hfind
        simp only at hfind
        have hipne : ip ≠ ip0 := by
          intro hc
          subst hc
          rw [mapFind_remove_self] at hfind
          exact Option.noConfusion hfind
        rw [mapFind_remove_ne _ _ _ hipne] at hfind
        obtain ⟨hidA, hipvn, hips⟩ := hbwd ip vn hfind
        have hidne : vn.id ≠ nid := by
          intro hc
          rw [hc] at hips
          rw [hips] at hlook
          exact hipne (Option.some.inj hlook)
        refine ⟨hidA, hipvn, ?_⟩
        simp only
        rw [mapFind_remove_ne _ _ _ hidne]
        exact hips

theorem goodState_runOps (A : List Bytes) (hinj : IpInjOn A)
    (ops : List LayerOp) (hsub : ∀ n, LayerOp.add n ∈ ops → n.id ∈ A)
    (st : TcpLayerState) (hst : GoodState A st) :
    GoodState A (runOps st ops) := by
  induction ops generalizing st with
  | nil => exact hst
  | cons op rest ih =>
    have hstep : GoodState A (applyOp st op) :=
      goodState_applyOp A hinj st op
        (fun n h => hsub n (by rw [h]; exact List.mem_cons_self _ _)) hst
    exact ih (fun n h => hsub n (List.mem_cons_of_mem _ h)) _ hstep

/-- C2 counterexample: two NodeIds that collide under `to_ipv6` break the
bidirectional invariant: after adding both, the first NodeId is still in
`ips`, but the `nodes` row for its ip carries the second NodeId. -/
theorem c2_counterexample :
    mapFind (runOps emptyState
        [LayerOp.add ⟨List.replicate 20 0, ⟨1⟩, 7⟩,
         LayerOp.add ⟨List.replicate 19 0 ++ [1], ⟨2⟩, 9⟩]).ips
      (List.replicate 20 0) = some (List.replicate 15 0 ++ [2])
  ∧ (mapFind (runOps emptyState
        [LayerOp.add ⟨List.replicate 20 0, ⟨1⟩, 7⟩,
         LayerOp.add ⟨List.replicate 19 0 ++ [1], ⟨2⟩, 9⟩]).nodes
      (List.replicate 15 0 ++ [2])).map VirtNode.id =
      some (List.replicate 19 0 ++ [1])
  ∧ (List.replicate 20 0 : Bytes) ≠ List.replicate 19 0 ++ [1] := by
  decide

/-- C2 amended: after any sequence of `add_virt_node`, `remove_node` and
`shutdown` operations from the empty state in which distinct added NodeIds
receive distinct virtual IPs (no `to_ipv6` collisions), the two indices are
mutually consistent in both directions. -/
theorem c2_bidirectional_consistency (ops : List LayerOp)
    (hinj : IpInjOn (addedIds ops)) :
    Consistent (runOps emptyState ops) := by
  have hgood : GoodState (addedIds ops) (runOps emptyState ops) :=
    goodState_runOps (addedIds ops) hinj ops
      (fun n h => mem_addedIds ops n h) emptyState
      (goodState_empty (addedIds ops))
  exact ⟨fun n ip h => (hgood.1 n ip h).2.2,
         fun ip vn h => (hgood.2 ip vn h).2.2⟩

/-- Witness for C2 amended: a concrete collision-free sequence of add,
re-add, remove and shutdown operations. -/
theorem c2_bidirectional_consistency_witness :
    Consistent (runOps emptyState
      [LayerOp.add ⟨3 :: List.replicate 19 0, ⟨1⟩, 7⟩,
       LayerOp.add ⟨4 :: List.replicate 19 0, ⟨2⟩, 9⟩,
       LayerOp.add ⟨3 :: List.replicate 19 0, ⟨3⟩, 5⟩,
       LayerOp.remove (4 :: List.replicate 19 0),
       LayerOp.shutdown]) :=
  c2_bidirectional_consistency
    [LayerOp.add ⟨3 :: List.replicate 19 0, ⟨1⟩, 7⟩,
     LayerOp.add ⟨4 :: List.replicate 19 0, ⟨2⟩, 9⟩,
     LayerOp.add ⟨3 :: List.replicate 19 0, ⟨3⟩, 5⟩,
     LayerOp.remove (4 :: List.replicate 19 0),
     LayerOp.shutdown] (by decide)

end YaRelay
